import Mathlib

/-!
Shallow embedding of the draw-call batching renderer of this repository
(src/graphics/renderer.rs), together with theorems checking the
specification's claims about it.

Modelling conventions:
* `usize` counters and offsets are `Nat`; `u16` index arithmetic keeps the
  source's wrapping semantics via an explicit `% 65536`.
* GPU-side objects (miniquad buffers, shaders, the compiled
  `miniquad::Pipeline`, render-pass textures) live behind the backend and
  are not part of the batcher's own state; they are represented by the
  data the batcher hands to the backend (`FlushCmd` below) or by opaque
  `Nat` handles (`TextureId`, `RenderPass`).
* `glam::Mat4` is an abstract type parameter `M` with decidable equality:
  the renderer only ever copies matrices and compares them with `==`.
* The vertex type parameter `V` mirrors the `V: AsVertex` generic; the
  renderer never inspects vertices, it only copies them.
* Functions that panic in Rust (`unwrap`, `assert!`, `panic!`, `expect`)
  return `Option` here, with `none` for the panic.
* `warn!` logging is modelled as a returned `Bool` flag where a claim
  cares about it (`pushGeometry`, the uniform setters).
-/

set_option linter.unusedSectionVars false

namespace Macroquad

/-- Texture handles (`miniquad::TextureId`) are opaque; model them as `Nat`. -/
abbrev TextureId := Nat

/-- Render pass handles (`miniquad::RenderPass`) are opaque; model them as `Nat`. -/
abbrev RenderPass := Nat

/-- Draw mode (renderer.rs lines 13-17). -/
inductive DrawMode where
  | Triangles
  | Lines
  deriving DecidableEq, Repr

/-- Pipeline handle (renderer.rs lines 19-34); the `PhantomData` vertex-type
marker carries no data and is dropped. -/
structure GlPipeline where
  id : Nat
  deriving DecidableEq, Repr

/-- Uniform types of `miniquad::UniformType`, an external enum whose
documented `size()` the renderer relies on. -/
inductive UniformType where
  | Float1
  | Float2
  | Float3
  | Float4
  | Int1
  | Int2
  | Int3
  | Int4
  | Mat4
  deriving DecidableEq, Repr

/-- Byte size of one element of each uniform type (miniquad's
`UniformType::size`). -/
def UniformType.size : UniformType → Nat
  | .Float1 => 4
  | .Float2 => 8
  | .Float3 => 12
  | .Float4 => 16
  | .Int1 => 4
  | .Int2 => 8
  | .Int3 => 12
  | .Int4 => 16
  | .Mat4 => 64

/-- Uniform descriptor handed to pipeline creation (`miniquad::UniformDesc`:
name, type, array count; `UniformDesc::new` uses array count 1). -/
structure UniformDesc where
  name : String
  uniform_type : UniformType
  array_count : Nat
  deriving DecidableEq, Repr

/-- Resolved uniform layout entry (renderer.rs lines 107-113). -/
structure Uniform where
  name : String
  uniform_type : UniformType
  byte_offset : Nat
  byte_size : Nat
  deriving DecidableEq, Repr

/-- Pipeline record (renderer.rs lines 115-124). The compiled
`miniquad::Pipeline` object is backend-side and dropped; `textures_data`
(a `BTreeMap`) is an association list. Bytes are `Nat`s. -/
structure PipelineExt where
  uniforms : List Uniform
  uniforms_data : List Nat
  textures : List String
  textures_data : List (String × Nat)
  deriving DecidableEq, Repr

/-- One pending draw call record (renderer.rs lines 36-54). -/
structure DrawCall (V M : Type) where
  vertices_count : Nat
  indices_count : Nat
  vertices_start : Nat
  indices_start : Nat
  clip : Option (Int × Int × Int × Int)
  viewport : Option (Int × Int × Int × Int)
  texture : Option TextureId
  model : M
  draw_mode : DrawMode
  pipeline : GlPipeline
  uniforms : Option (List Nat)
  render_pass : Option RenderPass
  capture : Bool
  deriving DecidableEq

/-- `DrawCall::new` (renderer.rs lines 56-82). -/
def DrawCall.new (texture : Option TextureId) (model : M) (draw_mode : DrawMode)
    (pipeline : GlPipeline) (uniforms : Option (List Nat))
    (render_pass : Option RenderPass) : DrawCall V M :=
  { vertices_start := 0
    indices_start := 0
    vertices_count := 0
    indices_count := 0
    viewport := none
    clip := none
    texture := texture
    model := model
    draw_mode := draw_mode
    pipeline := pipeline
    uniforms := uniforms
    render_pass := render_pass
    capture := false }

/-- Render state (renderer.rs lines 84-98). The never-empty
`model_stack: Vec<Mat4>` is represented by its top element plus the rest
(`model_stack.last().unwrap()` is `model_top`). -/
structure RendererState (M : Type) where
  texture : Option TextureId
  draw_mode : DrawMode
  clip : Option (Int × Int × Int × Int)
  viewport : Option (Int × Int × Int × Int)
  model_top : M
  model_rest : List M
  pipeline : Option GlPipeline
  depth_test_enable : Bool
  break_batching : Bool
  render_pass : Option RenderPass
  capture : Bool
  deriving DecidableEq

/-- `RendererState::model` (renderer.rs lines 100-105): top of the model
matrix stack. -/
def stateModel (st : RendererState M) : M := st.model_top

/-- Fixed pipeline registry capacity (renderer.rs line 209). -/
def MAX_PIPELINES : Nat := 32

/-- Pipeline registry (renderer.rs lines 211-215). -/
structure PipelineStorage where
  pipelines : List (Option PipelineExt)
  pipelines_amount : Nat
  deriving DecidableEq, Repr

/-- The three reserved uniforms every pipeline starts with
(renderer.rs `shader::uniforms`, lines 968-974, prepended in order by
`make_pipeline` lines 332-334). -/
def shaderUniformDescs : List UniformDesc :=
  [{ name := "Projection", uniform_type := .Mat4, array_count := 1 },
   { name := "Model", uniform_type := .Mat4, array_count := 1 },
   { name := "_Time", uniform_type := .Float4, array_count := 1 }]

/-- The offset-assigning scan of `make_pipeline` (renderer.rs lines 336-351):
each uniform's byte offset is the running sum of the previous uniforms'
`size * array_count`; returns the built list and the final offset
(`max_offset`). -/
def buildUniforms : Nat → List UniformDesc → List Uniform × Nat
  | off, [] => ([], off)
  | off, d :: ds =>
    let byte_size := d.uniform_type.size * d.array_count
    let rest := buildUniforms (off + byte_size) ds
    let u : Uniform :=
      { name := d.name, uniform_type := d.uniform_type, byte_offset := off,
        byte_size := byte_size }
    (u :: rest.1, rest.2)

/-- `PipelineStorage::make_pipeline` (renderer.rs lines 309-364): find the
first free slot (`none` models the "Pipelines amount exceeded" panic),
prepend the reserved shader uniforms, compute offsets, and install the new
`PipelineExt` with a zeroed uniform byte buffer of size `max_offset`.
The GPU pipeline compilation is backend-side. -/
def PipelineStorage.makePipeline (s : PipelineStorage) (uniforms : List UniformDesc)
    (textures : List String) : Option (PipelineStorage × GlPipeline) :=
  match s.pipelines.findIdx? Option.isNone with
  | none => none
  | some id =>
    let descs := shaderUniformDescs ++ uniforms
    let built := buildUniforms 0 descs
    some ({ pipelines := s.pipelines.set id (some
              { uniforms := built.1
                uniforms_data := List.replicate built.2 0
                textures := textures
                textures_data := [] })
            pipelines_amount := s.pipelines_amount + 1 },
          ⟨id⟩)

/-- `PipelineStorage::get_default_pipeline_by` (renderer.rs lines 367-378)
with the built-in slot ids of lines 219-222. -/
def getDefaultPipelineBy : DrawMode → Bool → GlPipeline
  | .Triangles, false => ⟨0⟩
  | .Triangles, true => ⟨2⟩
  | .Lines, false => ⟨1⟩
  | .Lines, true => ⟨3⟩

/-- `PipelineStorage::get_pipeline_mut` lookup (renderer.rs lines 381-383).
Handle ids produced by `makePipeline` are always in range; an out-of-range
id reads as `none` here (Rust would panic on the array index). -/
def getPipeline (s : PipelineStorage) (pip : GlPipeline) : Option PipelineExt :=
  s.pipelines.getD pip.id none

/-- `PipelineStorage::has_pipeline` (renderer.rs lines 386-388). -/
def hasPipeline (s : PipelineStorage) (pip : GlPipeline) : Bool :=
  (getPipeline s pip).isSome

/-- Replace the pipeline record in a slot (the write-back of a
`get_pipeline_mut` mutation). -/
def setPipelineAt (s : PipelineStorage) (id : Nat) (pe : PipelineExt) : PipelineStorage :=
  { s with pipelines := s.pipelines.set id (some pe) }

/-- The empty registry before the built-ins are created
(renderer.rs lines 249-252). -/
def PipelineStorage.empty : PipelineStorage :=
  { pipelines := List.replicate MAX_PIPELINES none, pipelines_amount := 0 }

/-- `PipelineStorage::new` (renderer.rs lines 224-307): create the four
built-in pipelines in slots 0-3 (triangles, lines, triangles+depth,
lines+depth; they differ only in backend-side `PipelineParams`). Creation
from the empty registry cannot fail (the source asserts the resulting
ids), so the `getD` fallbacks are never taken. -/
def PipelineStorage.new : PipelineStorage :=
  let s0 := PipelineStorage.empty
  let s1 := ((s0.makePipeline [] []).map Prod.fst).getD s0
  let s2 := ((s1.makePipeline [] []).map Prod.fst).getD s1
  let s3 := ((s2.makePipeline [] []).map Prod.fst).getD s2
  ((s3.makePipeline [] []).map Prod.fst).getD s3

/-- The batching renderer (renderer.rs lines 399-417). `draw_calls_bindings`
holds GPU buffer pairs; only its length is observable here. The
`start_time` field only feeds the `_Time` uniform and is dropped. -/
structure Renderer (V M : Type) where
  pipelines : PipelineStorage
  draw_calls : List (DrawCall V M)
  draw_calls_bindings : Nat
  draw_calls_count : Nat
  state : RendererState M
  white_texture : TextureId
  max_vertices : Nat
  max_indices : Nat
  batch_vertex_buffer : List V
  batch_index_buffer : List Nat
  deriving DecidableEq

/-- `Renderer::new` (renderer.rs lines 421-453); `m0` is `Mat4::IDENTITY`,
the initial model stack entry. -/
def Renderer.new (m0 : M) (max_vertices max_indices : Nat) : Renderer V M :=
  { pipelines := PipelineStorage.new
    state :=
      { clip := none
        viewport := none
        texture := none
        model_top := m0
        model_rest := []
        draw_mode := .Triangles
        pipeline := none
        break_batching := false
        depth_test_enable := false
        render_pass := none
        capture := false }
    draw_calls := []
    draw_calls_bindings := 0
    draw_calls_count := 0
    white_texture := 0
    max_vertices := max_vertices
    max_indices := max_indices
    batch_vertex_buffer := []
    batch_index_buffer := [] }

section Ops

variable {V M : Type} [DecidableEq M]

/-- State mutators (renderer.rs lines 638-669, 708-710). -/
def withCapture (r : Renderer V M) (capture : Bool) : Renderer V M :=
  { r with state := { r.state with capture := capture } }

def withRenderPass (r : Renderer V M) (render_pass : Option RenderPass) : Renderer V M :=
  { r with state := { r.state with render_pass := render_pass } }

def withDepthTest (r : Renderer V M) (enable : Bool) : Renderer V M :=
  { r with state := { r.state with depth_test_enable := enable } }

def withTexture (r : Renderer V M) (texture : Option TextureId) : Renderer V M :=
  { r with state := { r.state with texture := texture } }

def withScissor (r : Renderer V M) (clip : Option (Int × Int × Int × Int)) : Renderer V M :=
  { r with state := { r.state with clip := clip } }

def withViewport (r : Renderer V M) (viewport : Option (Int × Int × Int × Int)) : Renderer V M :=
  { r with state := { r.state with viewport := viewport } }

def withDrawMode (r : Renderer V M) (mode : DrawMode) : Renderer V M :=
  { r with state := { r.state with draw_mode := mode } }

/-- `Renderer::with_pipeline` (renderer.rs lines 692-706): an unchanged
override returns immediately; otherwise a `some` handle must be present in
the registry (`none` models the `assert!` panic), and "break batching" is
set together with the new override. -/
def withPipeline (r : Renderer V M) (pipeline : Option GlPipeline) : Option (Renderer V M) :=
  if r.state.pipeline = pipeline then
    some r
  else
    match pipeline with
    | some pip =>
      if hasPipeline r.pipelines pip then
        some { r with state := { r.state with break_batching := true, pipeline := some pip } }
      else none
    | none =>
      some { r with state := { r.state with break_batching := true, pipeline := none } }

/-- `Renderer::delete_pipeline` (renderer.rs lines 794-796, 390-392); the
source does not decrement `pipelines_amount`. -/
def deletePipeline (r : Renderer V M) (pip : GlPipeline) : Renderer V M :=
  { r with pipelines := { r.pipelines with
      pipelines := r.pipelines.pipelines.set pip.id none } }

/-- `Renderer::make_pipeline` (renderer.rs lines 455-488): the reserved
texture name "Texture" is a panic (`none`); shader compilation happens in
the backend and is assumed to succeed here. -/
def Renderer.makePipeline (r : Renderer V M) (uniforms : List UniformDesc)
    (textures : List String) : Option (Renderer V M × GlPipeline) :=
  if textures.contains "Texture" then none
  else (r.pipelines.makePipeline uniforms textures).map fun sp =>
    ({ r with pipelines := sp.1 }, sp.2)

/-- The effective pipeline of a push (renderer.rs lines 721-724): the
explicit override if set, else the default for the draw mode / depth flag. -/
def effectivePipeline (st : RendererState M) : GlPipeline :=
  st.pipeline.getD (getDefaultPipelineBy st.draw_mode st.depth_test_enable)

/-- The most recent pending draw call (renderer.rs lines 726-731). -/
def previousDC (r : Renderer V M) : Option (DrawCall V M) :=
  if r.draw_calls_count = 0 then none
  else r.draw_calls[r.draw_calls_count - 1]?

/-- The batching mismatch test (renderer.rs lines 733-744), in source
order; `nv`, `ni` are the (already clamped) pushed vertex/index counts.
The `usize` subtractions cannot underflow because `nv ≤ maxV` and
`ni ≤ maxI` after clamping, so `Nat` subtraction agrees with them. -/
def dcMismatch (dc : DrawCall V M) (st : RendererState M) (pip : GlPipeline)
    (maxV maxI nv ni : Nat) : Bool :=
  decide (dc.texture ≠ st.texture) ||
  decide (dc.clip ≠ st.clip) ||
  decide (dc.viewport ≠ st.viewport) ||
  decide (dc.model ≠ stateModel st) ||
  decide (dc.pipeline ≠ pip) ||
  decide (dc.render_pass ≠ st.render_pass) ||
  decide (dc.draw_mode ≠ st.draw_mode) ||
  decide (maxV - nv ≤ dc.vertices_count) ||
  decide (maxI - ni ≤ dc.indices_count) ||
  decide (dc.capture ≠ st.capture) ||
  st.break_batching

/-- Whether a push starts a new draw call (renderer.rs line 733): always on
the first push of the frame, else when the previous call mismatches. -/
def startNewCall (r : Renderer V M) (nv ni : Nat) : Bool :=
  match previousDC r with
  | none => true
  | some dc => dcMismatch dc r.state (effectivePipeline r.state) r.max_vertices r.max_indices nv ni

/-- The clamp `&l[0..max.min(l.len())]` of renderer.rs lines 718-719. -/
def truncTo (n : Nat) (l : List α) : List α := l.take (min n l.length)

/-- The new-draw-call branch (renderer.rs lines 745-780): snapshot the
override pipeline's uniform bytes, lazily grow the record list, overwrite
the recycled record's fields from the current state (note: the source
overwrites every `DrawCall` field here except `draw_mode`, which keeps the
recycled record's stale value), bump the pending count, clear "break
batching". The uniform-snapshot `unwrap` of line 749 is a `bind` here (it
can only panic when the override names a deleted pipeline). -/
def beginDrawCall (r : Renderer V M) : Renderer V M :=
  let pip := effectivePipeline r.state
  let uniforms := r.state.pipeline.bind fun p =>
    (getPipeline r.pipelines p).map fun pe => pe.uniforms_data
  let dcs :=
    if r.draw_calls.length ≤ r.draw_calls_count then
      r.draw_calls ++ [DrawCall.new r.state.texture (stateModel r.state)
        r.state.draw_mode pip uniforms r.state.render_pass]
    else r.draw_calls
  let dcs :=
    match dcs[r.draw_calls_count]? with
    | some dc => dcs.set r.draw_calls_count
        { dc with
          texture := r.state.texture
          uniforms := uniforms
          vertices_count := 0
          indices_count := 0
          clip := r.state.clip
          viewport := r.state.viewport
          model := stateModel r.state
          pipeline := pip
          render_pass := r.state.render_pass
          capture := r.state.capture
          indices_start := r.batch_index_buffer.length
          vertices_start := r.batch_vertex_buffer.length }
    | none => dcs
  { r with
    draw_calls := dcs
    draw_calls_count := r.draw_calls_count + 1
    state := { r.state with break_batching := false } }

/-- The append phase (renderer.rs lines 782-791): extend the shared
per-frame buffers, offsetting each pushed index by the call's current
vertex count with `u16` wrapping (`*x + dc.vertices_count as u16`), then
bump the call's counts and refresh its texture. `none` from `get?` models
the (unreachable) out-of-bounds index panic. -/
def appendGeometry (r : Renderer V M) (vs : List V) (inds : List Nat) : Renderer V M :=
  match r.draw_calls[r.draw_calls_count - 1]? with
  | some dc =>
    { r with
      batch_vertex_buffer := r.batch_vertex_buffer ++ vs
      batch_index_buffer := r.batch_index_buffer ++
        inds.map fun x => (x + dc.vertices_count % 65536) % 65536
      draw_calls := r.draw_calls.set (r.draw_calls_count - 1)
        { dc with
          vertices_count := dc.vertices_count + vs.length
          indices_count := dc.indices_count + inds.length
          texture := r.state.texture } }
  | none => r

/-- `Renderer::push_geometry` (renderer.rs lines 713-792). Returns the new
renderer and whether the clamp warning fired. -/
def pushGeometry (r : Renderer V M) (vertices : List V) (indices : List Nat) :
    Renderer V M × Bool :=
  let warned := decide (r.max_vertices ≤ vertices.length) ||
                decide (r.max_indices ≤ indices.length)
  let vs := truncTo r.max_vertices vertices
  let inds := truncTo r.max_indices indices
  let r1 := if startNewCall r vs.length inds.length then beginDrawCall r else r
  (appendGeometry r1 vs inds, warned)

/-- `Renderer::clear_draw_calls` (renderer.rs lines 505-507). -/
def clearDrawCalls (r : Renderer V M) : Renderer V M :=
  { r with draw_calls_count := 0 }

/-- `Renderer::clear` (renderer.rs lines 491-502): the clear-color pass is
a backend effect; the batcher state change is `clear_draw_calls`. -/
def clearRenderer (r : Renderer V M) : Renderer V M :=
  clearDrawCalls r

/-- One backend draw submission produced by the frame flusher: the data
`Renderer::draw` hands to the GPU for one pending call
(renderer.rs lines 545-620). -/
structure FlushCmd (V : Type) where
  target : Int × Int
  viewport : Int × Int × Int × Int
  scissor : Int × Int × Int × Int
  vertex_slice : List V
  index_slice : List Nat
  elements : Nat
  deriving DecidableEq

/-- Render target size for a draw call (renderer.rs lines 553-559):
the render pass texture's size, or the screen size. -/
def targetSize (screen : Int × Int) (passSize : RenderPass → Int × Int)
    (dc : DrawCall V M) : Int × Int :=
  match dc.render_pass with
  | some rp => passSize rp
  | none => screen

/-- The backend submission for one pending call (renderer.rs lines 561-619):
upload the call's vertex/index slices, apply the explicit viewport or the
full target, apply the scissor rect (vertical flip of the top-left-origin
clip: y becomes `height - (y + h)`) or the full target, draw
`indices_count` elements. Texture binding and uniform resolution are
backend/pipeline effects not recorded here. -/
def drawOneCmd (r : Renderer V M) (screen : Int × Int)
    (passSize : RenderPass → Int × Int) (dc : DrawCall V M) : FlushCmd V :=
  let wh := targetSize screen passSize dc
  { target := wh
    viewport := dc.viewport.getD (0, 0, wh.1, wh.2)
    scissor :=
      match dc.clip with
      | some c => (c.1, wh.2 - (c.2.1 + c.2.2.2), c.2.2.1, c.2.2.2)
      | none => (0, 0, wh.1, wh.2)
    vertex_slice := (r.batch_vertex_buffer.drop dc.vertices_start).take dc.vertices_count
    index_slice := (r.batch_index_buffer.drop dc.indices_start).take dc.indices_count
    elements := dc.indices_count }

/-- Zero the counters and offsets of the first `n` draw-call records, as
the flush loop does after each submission (renderer.rs lines 627-630). -/
def resetFirst : Nat → List (DrawCall V M) → List (DrawCall V M)
  | _, [] => []
  | 0, dcs => dcs
  | n + 1, dc :: dcs =>
    { dc with
      vertices_count := 0
      indices_count := 0
      vertices_start := 0
      indices_start := 0 } :: resetFirst n dcs

/-- `Renderer::draw`, the frame flusher (renderer.rs lines 517-636): grow
the GPU binding pairs to one per record, submit the first
`draw_calls_count` pending calls in order, zero their counters, then reset
the pending count and clear the shared per-frame buffers. Returns the
renderer and the ordered backend submissions. -/
def draw (r : Renderer V M) (screen : Int × Int)
    (passSize : RenderPass → Int × Int) : Renderer V M × List (FlushCmd V) :=
  let bindings := r.draw_calls_bindings + (r.draw_calls.length - r.draw_calls_bindings)
  let cmds := (r.draw_calls.take r.draw_calls_count).map (drawOneCmd r screen passSize)
  ({ r with
      draw_calls_bindings := bindings
      draw_calls := resetFirst r.draw_calls_count r.draw_calls
      draw_calls_count := 0
      batch_vertex_buffer := []
      batch_index_buffer := [] },
   cmds)

/-- `Renderer::update_drawcall_capacity` (renderer.rs lines 854-894): set
the new maxima, drop all pending calls, zero every record's offsets (the
counts are left alone), and recreate the GPU buffers (backend-side). -/
def updateDrawcallCapacity (r : Renderer V M) (max_vertices max_indices : Nat) :
    Renderer V M :=
  { r with
    max_vertices := max_vertices
    max_indices := max_indices
    draw_calls_count := 0
    draw_calls := r.draw_calls.map fun dc =>
      { dc with indices_start := 0, vertices_start := 0 } }

/-- Write `data` into `buf` one byte at a time starting at `off`, as the
`transmute_uniform!` loop does (renderer.rs lines 156-166). An
out-of-range `List.set` is a no-op (Rust would panic; pipelines built by
`makePipeline` keep all declared uniforms in range). -/
def storeBytes : List Nat → Nat → List Nat → List Nat
  | buf, _, [] => buf
  | buf, off, b :: bs => storeBytes (buf.set off b) (off + 1) bs

/-- `PipelineExt::set_uniform` (renderer.rs lines 128-172). The generic
value is its byte image `v` (`std::mem::size_of::<T>()` is `v.length`).
Returns the pipeline and whether a warning fired. The five sequential
`transmute_uniform!` tests write only for the supported widths
4, 8, 12, 16, 64. -/
def PipelineExt.setUniform (p : PipelineExt) (name : String) (v : List Nat) :
    PipelineExt × Bool :=
  match p.uniforms.find? (fun u => u.name == name) with
  | none => (p, true)
  | some um =>
    let ubs := um.uniform_type.size
    if v.length ≠ ubs then (p, true)
    else if ubs ≠ um.byte_size then (p, true)
    else
      let data := p.uniforms_data
      let data := if ubs = 4 then storeBytes data um.byte_offset (v.take 4) else data
      let data := if ubs = 8 then storeBytes data um.byte_offset (v.take 8) else data
      let data := if ubs = 12 then storeBytes data um.byte_offset (v.take 12) else data
      let data := if ubs = 16 then storeBytes data um.byte_offset (v.take 16) else data
      let data := if ubs = 64 then storeBytes data um.byte_offset (v.take 64) else data
      ({ p with uniforms_data := data }, false)

/-- `PipelineExt::set_uniform_array` (renderer.rs lines 174-206); `data`
is the byte image of the whole slice. -/
def PipelineExt.setUniformArray (p : PipelineExt) (name : String) (data : List Nat) :
    PipelineExt × Bool :=
  match p.uniforms.find? (fun u => u.name == name) with
  | none => (p, true)
  | some um =>
    if data.length ≠ um.byte_size then (p, true)
    else
      ({ p with uniforms_data :=
          storeBytes p.uniforms_data um.byte_offset (data.take um.byte_size) }, false)

/-- `Renderer::set_uniform` (renderer.rs lines 803-810): set "break
batching" and write the uniform; the pipeline must be present (`none`
models the `expect` panic — the source sets the flag before panicking, but
the unwound state is unobservable, so both effects live under the `map`). -/
def Renderer.setUniform (r : Renderer V M) (pip : GlPipeline) (name : String)
    (v : List Nat) : Option (Renderer V M) :=
  (getPipeline r.pipelines pip).map fun pe =>
    { r with
      state := { r.state with break_batching := true }
      pipelines := setPipelineAt r.pipelines pip.id (pe.setUniform name v).1 }

/-- `Renderer::set_uniform_array` (renderer.rs lines 812-824); same
modelling note as `Renderer.setUniform`. -/
def Renderer.setUniformArray (r : Renderer V M) (pip : GlPipeline) (name : String)
    (data : List Nat) : Option (Renderer V M) :=
  (getPipeline r.pipelines pip).map fun pe =>
    { r with
      state := { r.state with break_batching := true }
      pipelines := setPipelineAt r.pipelines pip.id (pe.setUniformArray name data).1 }

/-- Insert or overwrite in the `textures_data` map
(`entry(name).or_insert(texture) = texture`, renderer.rs lines 843-846). -/
def setAssoc : List (String × Nat) → String → Nat → List (String × Nat)
  | [], n, t => [(n, t)]
  | (k, v) :: rest, n, t =>
    if k = n then (k, t) :: rest else (k, v) :: setAssoc rest n t

/-- `Renderer::set_texture` (renderer.rs lines 827-847): the pipeline must
be present and the name must be a declared texture name (both `none` on
panic); note the source does not touch "break batching" here. -/
def Renderer.setTexture (r : Renderer V M) (pip : GlPipeline) (name : String)
    (texture : TextureId) : Option (Renderer V M) :=
  (getPipeline r.pipelines pip).bind fun pe =>
    if pe.textures.contains name then
      let pe1 : PipelineExt :=
        { pe with textures_data := setAssoc pe.textures_data name texture }
      some { r with pipelines := setPipelineAt r.pipelines pip.id pe1 }
    else none

end Ops

section Helpers

variable {V M : Type} [DecidableEq M]

theorem truncTo_length (n : Nat) (l : List α) : (truncTo n l).length = min n l.length := by
  simp [truncTo, Nat.min_assoc]

theorem truncTo_of_le (n : Nat) (l : List α) (h : l.length ≤ n) : truncTo n l = l := by
  simp [truncTo, Nat.min_eq_right h]

theorem storeBytes_length (data : List Nat) : ∀ (buf : List Nat) (off : Nat),
    (storeBytes buf off data).length = buf.length := by
  induction data with
  | nil => intro buf off; rfl
  | cons b bs ih => intro buf off; rw [storeBytes, ih, List.length_set]

theorem storeBytes_getElem_lt (data : List Nat) : ∀ (buf : List Nat) (off i : Nat),
    i < off → (storeBytes buf off data)[i]? = buf[i]? := by
  induction data with
  | nil => intro buf off i _; rfl
  | cons b bs ih =>
    intro buf off i hi
    rw [storeBytes, ih _ _ _ (Nat.lt_succ_of_lt hi),
        List.getElem?_set_ne (Nat.ne_of_gt hi)]

theorem storeBytes_extract (data : List Nat) : ∀ (buf : List Nat) (off : Nat),
    off + data.length ≤ buf.length →
    ((storeBytes buf off data).drop off).take data.length = data := by
  induction data with
  | nil => intro buf off _; simp
  | cons b bs ih =>
    intro buf off hb
    rw [List.length_cons] at hb
    have hoff : off < buf.length := by omega
    have hlen : off < (storeBytes (buf.set off b) (off + 1) bs).length := by
      rw [storeBytes_length, List.length_set]
      exact hoff
    have hat : (storeBytes (buf.set off b) (off + 1) bs)[off]? = some b := by
      rw [storeBytes_getElem_lt _ _ _ _ (Nat.lt_succ_self off),
          List.getElem?_set_self hoff]
    have hdrop : (storeBytes (buf.set off b) (off + 1) bs).drop off =
        b :: (storeBytes (buf.set off b) (off + 1) bs).drop (off + 1) := by
      rw [List.drop_eq_getElem_cons hlen]
      have : (storeBytes (buf.set off b) (off + 1) bs)[off] = b := by
        have h2 := hat
        rw [List.getElem?_eq_getElem hlen] at h2
        exact Option.some.inj h2
      rw [this]
    rw [storeBytes, hdrop, List.length_cons, List.take_succ_cons]
    congr 1
    exact ih (buf.set off b) (off + 1) (by rw [List.length_set]; omega)

theorem appendGeometry_eq (r : Renderer V M) (vs : List V) (inds : List Nat)
    (dc : DrawCall V M) (hdc : r.draw_calls[r.draw_calls_count - 1]? = some dc) :
    appendGeometry r vs inds = { r with
      batch_vertex_buffer := r.batch_vertex_buffer ++ vs
      batch_index_buffer := r.batch_index_buffer ++
        inds.map fun x => (x + dc.vertices_count % 65536) % 65536
      draw_calls := r.draw_calls.set (r.draw_calls_count - 1)
        { dc with
          vertices_count := dc.vertices_count + vs.length
          indices_count := dc.indices_count + inds.length
          texture := r.state.texture } } := by
  unfold appendGeometry
  rw [hdc]

theorem pushGeometry_eq (r : Renderer V M) (vertices : List V) (indices : List Nat) :
    pushGeometry r vertices indices =
      (appendGeometry
        (if startNewCall r (truncTo r.max_vertices vertices).length
            (truncTo r.max_indices indices).length then beginDrawCall r else r)
        (truncTo r.max_vertices vertices) (truncTo r.max_indices indices),
       decide (r.max_vertices ≤ vertices.length) ||
       decide (r.max_indices ≤ indices.length)) := rfl

theorem beginDrawCall_count (r : Renderer V M) :
    (beginDrawCall r).draw_calls_count = r.draw_calls_count + 1 := rfl

theorem beginDrawCall_state (r : Renderer V M) :
    (beginDrawCall r).state = { r.state with break_batching := false } := rfl

theorem beginDrawCall_frame (r : Renderer V M) :
    (beginDrawCall r).max_vertices = r.max_vertices ∧
    (beginDrawCall r).max_indices = r.max_indices ∧
    (beginDrawCall r).batch_vertex_buffer = r.batch_vertex_buffer ∧
    (beginDrawCall r).batch_index_buffer = r.batch_index_buffer ∧
    (beginDrawCall r).pipelines = r.pipelines ∧
    (beginDrawCall r).draw_calls_bindings = r.draw_calls_bindings := ⟨rfl, rfl, rfl, rfl, rfl, rfl⟩

theorem beginDrawCall_length (r : Renderer V M)
    (hwf : r.draw_calls_count ≤ r.draw_calls.length) :
    (beginDrawCall r).draw_calls.length =
      max r.draw_calls.length (r.draw_calls_count + 1) := by
  unfold beginDrawCall
  by_cases hl : r.draw_calls.length ≤ r.draw_calls_count
  · have he : r.draw_calls.length = r.draw_calls_count := Nat.le_antisymm hl hwf
    simp only [if_pos hl]
    cases hget : (r.draw_calls ++
        [DrawCall.new r.state.texture (stateModel r.state) r.state.draw_mode
          (effectivePipeline r.state)
          (r.state.pipeline.bind fun p =>
            (getPipeline r.pipelines p).map fun pe => pe.uniforms_data)
          r.state.render_pass])[r.draw_calls_count]? with
    | none => simp [hget, he, Nat.max_eq_right]
    | some dc => simp [hget, List.length_set, he, Nat.max_eq_right]
  · push_neg at hl
    simp only [if_neg (Nat.not_le_of_lt hl)]
    cases hget : r.draw_calls[r.draw_calls_count]? with
    | none => simp [hget, Nat.max_eq_left hl]
    | some dc => simp [hget, List.length_set, Nat.max_eq_left hl]

theorem beginDrawCall_slot_lt (r : Renderer V M) (i : Nat)
    (hwf : r.draw_calls_count ≤ r.draw_calls.length)
    (hi : i < r.draw_calls_count) :
    (beginDrawCall r).draw_calls[i]? = r.draw_calls[i]? := by
  unfold beginDrawCall
  by_cases hl : r.draw_calls.length ≤ r.draw_calls_count
  · have he : r.draw_calls.length = r.draw_calls_count := Nat.le_antisymm hl hwf
    simp only [if_pos hl]
    cases hget : (r.draw_calls ++
        [DrawCall.new r.state.texture (stateModel r.state) r.state.draw_mode
          (effectivePipeline r.state)
          (r.state.pipeline.bind fun p =>
            (getPipeline r.pipelines p).map fun pe => pe.uniforms_data)
          r.state.render_pass])[r.draw_calls_count]? with
    | none =>
      simp only [hget]
      exact List.getElem?_append_left (by omega)
    | some dc =>
      simp only [hget]
      rw [List.getElem?_set_ne (by omega)]
      exact List.getElem?_append_left (by omega)
  · push_neg at hl
    simp only [if_neg (Nat.not_le_of_lt hl)]
    cases hget : r.draw_calls[r.draw_calls_count]? with
    | none => simp only [hget]
    | some dc =>
      simp only [hget]
      exact List.getElem?_set_ne (by omega)

theorem beginDrawCall_slot (r : Renderer V M)
    (hwf : r.draw_calls_count ≤ r.draw_calls.length) :
    ∃ dm, (beginDrawCall r).draw_calls[r.draw_calls_count]? = some
      { vertices_count := 0
        indices_count := 0
        vertices_start := r.batch_vertex_buffer.length
        indices_start := r.batch_index_buffer.length
        clip := r.state.clip
        viewport := r.state.viewport
        texture := r.state.texture
        model := stateModel r.state
        draw_mode := dm
        pipeline := effectivePipeline r.state
        uniforms := r.state.pipeline.bind fun p =>
          (getPipeline r.pipelines p).map fun pe => pe.uniforms_data
        render_pass := r.state.render_pass
        capture := r.state.capture } ∧
      (r.draw_calls.length = r.draw_calls_count → dm = r.state.draw_mode) ∧
      (∀ dc0, r.draw_calls[r.draw_calls_count]? = some dc0 → dm = dc0.draw_mode) := by
  unfold beginDrawCall
  by_cases hl : r.draw_calls.length ≤ r.draw_calls_count
  · have he : r.draw_calls.length = r.draw_calls_count := Nat.le_antisymm hl hwf
    refine ⟨r.state.draw_mode, ?_, fun _ => rfl, fun dc0 h0 => ?_⟩
    · simp only [if_pos hl]
      have hget : (r.draw_calls ++
          [DrawCall.new r.state.texture (stateModel r.state) r.state.draw_mode
            (effectivePipeline r.state)
            (r.state.pipeline.bind fun p =>
              (getPipeline r.pipelines p).map fun pe => pe.uniforms_data)
            r.state.render_pass])[r.draw_calls_count]? = some
          (DrawCall.new r.state.texture (stateModel r.state) r.state.draw_mode
            (effectivePipeline r.state)
            (r.state.pipeline.bind fun p =>
              (getPipeline r.pipelines p).map fun pe => pe.uniforms_data)
            r.state.render_pass) := by
        rw [← he]
        exact List.getElem?_concat_length _ _
      simp only [hget]
      rw [List.getElem?_set_self (by simp [he])]
      rfl
    · rw [List.getElem?_eq_none (by omega)] at h0
      cases h0
  · push_neg at hl
    obtain ⟨dc0, hdc0⟩ : ∃ dc0, r.draw_calls[r.draw_calls_count]? = some dc0 := by
      rw [List.getElem?_eq_getElem hl]
      exact ⟨_, rfl⟩
    refine ⟨dc0.draw_mode, ?_, fun he => absurd he (by omega), fun dc1 h1 => ?_⟩
    · simp only [if_neg (Nat.not_le_of_lt hl), hdc0]
      rw [List.getElem?_set_self hl]
    · rw [hdc0] at h1
      cases h1
      rfl

end Helpers

section Claims

variable {V M : Type} [DecidableEq M]

/-- Fixture pipeline for the uniform round-trip claim: one declared
`Float4` uniform at byte offset 4 in a 20-byte buffer. -/
def c7P : PipelineExt :=
  { uniforms := [{ name := "u0", uniform_type := .Float4, byte_offset := 4, byte_size := 16 }]
    uniforms_data := List.replicate 20 0
    textures := []
    textures_data := [] }

/-- C7: for a uniform whose descriptor is found by name, has element count
one (its `byte_size` equals its type's single-element size — the supported
widths 4, 8, 12, 16 and 64 are exactly the values of `UniformType.size`),
and lies inside the uniform byte buffer, writing a value of exactly that
byte width and reading the buffer back at the descriptor's offset returns
exactly the written bytes. -/
theorem c7_uniform_roundtrip (p : PipelineExt) (name : String) (um : Uniform)
    (v : List Nat)
    (hfind : p.uniforms.find? (fun u => u.name == name) = some um)
    (hsingle : um.byte_size = um.uniform_type.size)
    (hlen : v.length = um.uniform_type.size)
    (hbound : um.byte_offset + um.uniform_type.size ≤ p.uniforms_data.length) :
    (((p.setUniform name v).1.uniforms_data.drop um.byte_offset).take v.length) = v := by
  have htake : ∀ n : Nat, v.length = n → v.take n = v := by
    intro n hn
    rw [← hn]
    exact List.take_length v
  rcases um with ⟨uname, utype, uoff, usize⟩
  cases utype <;>
    (simp only [UniformType.size] at hsingle hlen hbound
     rw [PipelineExt.setUniform, hfind]
     simp [hlen, hsingle, htake _ hlen]
     have h2 := storeBytes_extract v p.uniforms_data uoff (by omega)
     rw [hlen] at h2
     exact h2)

/-- C7 witness: writing 16 bytes to the `Float4` uniform of the fixture
pipeline and reading them back at offset 4. -/
theorem c7_uniform_roundtrip_witness :
    (((c7P.setUniform "u0"
        [1, 2, 3, 4, 5, 6, 7, 8, 9, 10, 11, 12, 13, 14, 15, 16]).1.uniforms_data.drop 4).take
        [1, 2, 3, 4, 5, 6, 7, 8, 9, 10, 11, 12, 13, 14, 15, 16].length) =
      [1, 2, 3, 4, 5, 6, 7, 8, 9, 10, 11, 12, 13, 14, 15, 16] :=
  c7_uniform_roundtrip c7P "u0" _ _ rfl rfl rfl (by decide)

/-- Fixture pipeline for the malformed-uniform claim. -/
def c8P : PipelineExt :=
  { uniforms := [{ name := "u1", uniform_type := .Float1, byte_offset := 0, byte_size := 4 }]
    uniforms_data := [0, 0, 0, 0]
    textures := []
    textures_data := [] }

/-- C8: a `set_uniform` call naming a uniform the pipeline does not declare,
or supplying a value whose byte size differs from the descriptor's
single-element size, warns and leaves the pipeline unchanged; the model is
total, so the frame never aborts. -/
theorem c8_bad_uniform_noop (p : PipelineExt) (name : String) (v : List Nat)
    (h : p.uniforms.find? (fun u => u.name == name) = none ∨
      ∃ um, p.uniforms.find? (fun u => u.name == name) = some um ∧
        v.length ≠ um.uniform_type.size) :
    p.setUniform name v = (p, true) := by
  rcases h with h | ⟨um, hfind, hne⟩
  · rw [PipelineExt.setUniform, h]
  · rw [PipelineExt.setUniform, hfind]
    simp only [if_pos hne]

/-- C8 witness: an unknown uniform name and a wrong-sized value are both
no-ops on the fixture pipeline. -/
theorem c8_bad_uniform_noop_witness :
    c8P.setUniform "nope" [1, 2, 3, 4] = (c8P, true) ∧
    c8P.setUniform "u1" [1, 2, 3, 4, 5] = (c8P, true) :=
  ⟨c8_bad_uniform_noop c8P "nope" [1, 2, 3, 4] (Or.inl rfl),
   c8_bad_uniform_noop c8P "u1" [1, 2, 3, 4, 5]
     (Or.inr ⟨_, rfl, by decide⟩)⟩

/-- Modelled from the spec (section 4.3): the applied scissor is the clip
rectangle with its y origin flipped to target height minus (y + h), with
x, w, h unchanged, or the full target size when no clip is set. -/
def specScissor (clip : Option (Int × Int × Int × Int)) (size : Int × Int) :
    Int × Int × Int × Int :=
  match clip with
  | some c => (c.1, size.2 - (c.2.1 + c.2.2.2), c.2.2.1, c.2.2.2)
  | none => (0, 0, size.1, size.2)

/-- C6: every backend submission the flusher produces for a pending draw
call carries the scissor rectangle the spec prescribes: the clip with its
y origin vertically flipped against the call's target height, or the full
target if no clip is set. -/
theorem c6_scissor_flip (r : Renderer V M) (screen : Int × Int)
    (passSize : RenderPass → Int × Int) (k : Nat) (dc : DrawCall V M)
    (cmd : FlushCmd V)
    (hdc : r.draw_calls[k]? = some dc)
    (hcmd : (draw r screen passSize).2[k]? = some cmd) :
    cmd.scissor = specScissor dc.clip (targetSize screen passSize dc) := by
  unfold draw at hcmd
  simp only [List.getElem?_map] at hcmd
  cases htake : (r.draw_calls.take r.draw_calls_count)[k]? with
  | none => rw [htake] at hcmd; cases hcmd
  | some dc1 =>
    have hk : k < r.draw_calls_count := by
      by_contra hk
      rw [List.getElem?_eq_none] at htake
      · cases htake
      · rw [List.length_take]
        omega
    rw [htake] at hcmd
    rw [List.getElem?_take_of_lt hk, hdc] at htake
    cases htake
    cases hcmd
    cases hclip : dc.clip with
    | none => simp [drawOneCmd, specScissor, hclip]
    | some c => simp [drawOneCmd, specScissor, hclip]

/-- Fixture renderer for the C6 witness: the spec's scenario, a clip of
(10, 10, 50, 50) and one pushed triangle. -/
def c6R : Renderer Unit Unit :=
  (pushGeometry (withScissor (Renderer.new () 100 100) (some (10, 10, 50, 50)))
    [(), (), ()] [0, 1, 2]).1

/-- C6 witness: flushing the fixture against a 300 by 200 target applies
scissor (10, 140, 50, 50), as 200 - (10 + 50) = 140. -/
theorem c6_scissor_flip_witness :
    ((draw c6R (300, 200) fun _ => (0, 0)).2[0]?).map FlushCmd.scissor =
      some (10, 140, 50, 50) := by
  cases hcmd : (draw c6R (300, 200) fun _ => (0, 0)).2[0]? with
  | none =>
    have hs : ((draw c6R (300, 200) fun _ => (0, 0)).2[0]?).isSome = true := by decide
    rw [hcmd] at hs
    cases hs
  | some cmd =>
    have hdc : c6R.draw_calls[0]? = some
        { vertices_count := 3
          indices_count := 3
          vertices_start := 0
          indices_start := 0
          clip := some (10, 10, 50, 50)
          viewport := none
          texture := none
          model := ()
          draw_mode := .Triangles
          pipeline := ⟨0⟩
          uniforms := none
          render_pass := none
          capture := false } := by decide
    have h := c6_scissor_flip c6R (300, 200) (fun _ => (0, 0)) 0 _ cmd hdc hcmd
    show some cmd.scissor = some (10, 140, 50, 50)
    rw [h]
    decide

/-- C5: a push whose supplied vertex or index count exceeds the per-call
maximum warns, truncates the geometry to the maximum (the stored counts are
the clamped `min` values), caps the resulting draw call's counts at the
maxima, and never expands the configured capacity; the model is a total
function, so the operation never fails. -/
theorem c5_overflow_clamped (r : Renderer V M) (vertices : List V) (indices : List Nat)
    (hwf : r.draw_calls_count ≤ r.draw_calls.length)
    (hex : r.max_vertices < vertices.length ∨ r.max_indices < indices.length) :
    (pushGeometry r vertices indices).2 = true ∧
    (((pushGeometry r vertices indices).1.draw_calls[
        (pushGeometry r vertices indices).1.draw_calls_count - 1]?).map
        fun dc => (dc.vertices_count, dc.indices_count)) =
      some (min r.max_vertices vertices.length, min r.max_indices indices.length) ∧
    min r.max_vertices vertices.length ≤ r.max_vertices ∧
    min r.max_indices indices.length ≤ r.max_indices ∧
    (pushGeometry r vertices indices).1.max_vertices = r.max_vertices ∧
    (pushGeometry r vertices indices).1.max_indices = r.max_indices := by
  have hwarn : (pushGeometry r vertices indices).2 = true := by
    rw [pushGeometry_eq]
    rcases hex with h | h
    · simp [Nat.le_of_lt h]
    · simp [Nat.le_of_lt h]
  have hsn : startNewCall r (truncTo r.max_vertices vertices).length
      (truncTo r.max_indices indices).length = true := by
    unfold startNewCall
    cases hp : previousDC r with
    | none => rfl
    | some dc =>
      unfold dcMismatch
      rcases hex with h | h
      · have h0 : r.max_vertices - (truncTo r.max_vertices vertices).length = 0 := by
          rw [truncTo_length]
          omega
        simp [h0]
      · have h0 : r.max_indices - (truncTo r.max_indices indices).length = 0 := by
          rw [truncTo_length]
          omega
        simp [h0]
  obtain ⟨dm, hslot, -, -⟩ := beginDrawCall_slot r hwf
  have hdc : (beginDrawCall r).draw_calls[(beginDrawCall r).draw_calls_count - 1]? =
      some
      { vertices_count := 0
        indices_count := 0
        vertices_start := r.batch_vertex_buffer.length
        indices_start := r.batch_index_buffer.length
        clip := r.state.clip
        viewport := r.state.viewport
        texture := r.state.texture
        model := stateModel r.state
        draw_mode := dm
        pipeline := effectivePipeline r.state
        uniforms := r.state.pipeline.bind fun p =>
          (getPipeline r.pipelines p).map fun pe => pe.uniforms_data
        render_pass := r.state.render_pass
        capture := r.state.capture } := by
    rw [beginDrawCall_count]
    simpa using hslot
  have hr1 : (pushGeometry r vertices indices).1 =
      appendGeometry (beginDrawCall r) (truncTo r.max_vertices vertices)
        (truncTo r.max_indices indices) := by
    rw [pushGeometry_eq, hsn]
    simp
  refine ⟨hwarn, ?_, Nat.min_le_left _ _, Nat.min_le_left _ _,
    by rw [hr1, appendGeometry_eq _ _ _ _ hdc]; rfl,
    by rw [hr1, appendGeometry_eq _ _ _ _ hdc]; rfl⟩
  rw [hr1, appendGeometry_eq _ _ _ _ hdc]
  have hcount : (beginDrawCall r).draw_calls_count - 1 = r.draw_calls_count := by
    rw [beginDrawCall_count]
    omega
  have hlen2 : r.draw_calls_count < (beginDrawCall r).draw_calls.length := by
    rw [beginDrawCall_length r hwf]
    omega
  simp only [hcount]
  rw [List.getElem?_set_self hlen2]
  simp [truncTo_length]

/-- C5 witness: pushing 6 vertices and 6 indices into a batcher whose
per-call maximum is 4 vertices warns and produces a call clamped to 4
vertices (the indices, under the maximum, are kept whole). -/
theorem c5_overflow_clamped_witness :
    (pushGeometry (Renderer.new () 4 100 : Renderer Unit Unit)
      [(), (), (), (), (), ()] [0, 1, 2, 3, 4, 5]).2 = true ∧
    (((pushGeometry (Renderer.new () 4 100 : Renderer Unit Unit)
        [(), (), (), (), (), ()] [0, 1, 2, 3, 4, 5]).1.draw_calls[
        (pushGeometry (Renderer.new () 4 100 : Renderer Unit Unit)
          [(), (), (), (), (), ()] [0, 1, 2, 3, 4, 5]).1.draw_calls_count - 1]?).map
        fun dc => (dc.vertices_count, dc.indices_count)) = some (min 4 6, min 100 6) ∧
    min 4 6 ≤ 4 ∧ min 100 6 ≤ 100 ∧
    (pushGeometry (Renderer.new () 4 100 : Renderer Unit Unit)
      [(), (), (), (), (), ()] [0, 1, 2, 3, 4, 5]).1.max_vertices = 4 ∧
    (pushGeometry (Renderer.new () 4 100 : Renderer Unit Unit)
      [(), (), (), (), (), ()] [0, 1, 2, 3, 4, 5]).1.max_indices = 100 :=
  c5_overflow_clamped (Renderer.new () 4 100) [(), (), (), (), (), ()]
    [0, 1, 2, 3, 4, 5] (by decide) (Or.inl (by decide))

/-- C1 counterexample: two pushes with a completely unchanged Render State
and no uniform/texture/pipeline mutation in between still produce two
pending draw calls when the second push would overflow the first call's
remaining vertex capacity (maximum 4 here); the claim requires exactly one
draw call for every such sequence. -/
theorem c1_capacity_counterexample :
    ((pushGeometry (pushGeometry (Renderer.new () 4 100 : Renderer Unit Unit)
        [(), (), ()] [0, 1, 2]).1 [(), (), ()] [0, 1, 2]).1).draw_calls_count = 2 := by
  decide

/-- The C2 failing input: frame one pushes a triangle under a user pipeline
override and is flushed (which recycles the draw-call record); in frame two
the draw mode is set to Lines and a triangle is pushed, then the draw mode
is changed to Triangles — a single Render State field change — and a second
triangle is pushed. -/
def c2FailingInput : Option (Renderer Unit Unit) :=
  (Renderer.makePipeline (Renderer.new () 100 100) [] []).bind fun rp =>
    (withPipeline rp.1 (some rp.2)).map fun r2 =>
      let p1 := (pushGeometry r2 [(), (), ()] [0, 1, 2]).1
      let f := (draw p1 (100, 100) fun _ => (100, 100)).1
      let m := withDrawMode f .Lines
      let q1 := (pushGeometry m [(), (), ()] [0, 1, 2]).1
      let m2 := withDrawMode q1 .Triangles
      (pushGeometry m2 [(), (), ()] [0, 1, 2]).1

/-- C2 (code bug): on the failing input, the draw mode is changed to a
different value between two consecutive pushes while every other Render
State field stays identical, yet both pushes merge into one pending draw
call instead of two. The new-call path of `push_geometry` (renderer.rs
lines 765-776) refreshes every field of a recycled draw-call record except
`draw_mode`, so the stale recorded mode (Triangles, from frame one)
accidentally equals the new state and the mismatch test passes. -/
theorem c2_stale_draw_mode_eval :
    (c2FailingInput.map fun r => r.draw_calls_count) = some 1 := by decide

/-- The C4 counterexample run: a renderer with a user pipeline declaring
texture "tex0", on which `set_texture` succeeds. -/
def c4SetTextureRun : Option (Renderer Unit Unit) :=
  (Renderer.makePipeline (Renderer.new () 16 16) [] ["tex0"]).bind fun rp =>
    Renderer.setTexture rp.1 rp.2 "tex0" 7

/-- C4 counterexample: a successful `set_texture` call leaves the
break-batching flag clear, contradicting the claim that every texture
mutation sets it. -/
theorem c4_set_texture_counterexample :
    (c4SetTextureRun.map fun r => r.state.break_batching) = some false := by decide

/-- C4 (amended): `set_uniform` and `set_uniform_array` set the Render
State's break-batching flag, so the next push starts a new draw call;
`set_texture` only updates the pipeline's texture binding and leaves the
Render State — including the break-batching flag — unchanged. -/
theorem c4_break_batching_amended (r : Renderer V M) (pip : GlPipeline)
    (uname tname : String) (v data : List Nat) (tex : TextureId) :
    (∀ r1, Renderer.setUniform r pip uname v = some r1 →
      r1.state.break_batching = true) ∧
    (∀ r1, Renderer.setUniformArray r pip uname data = some r1 →
      r1.state.break_batching = true) ∧
    (∀ r1, Renderer.setTexture r pip tname tex = some r1 → r1.state = r.state) := by
  refine ⟨?_, ?_, ?_⟩
  · intro r1 h
    unfold Renderer.setUniform at h
    cases hg : getPipeline r.pipelines pip with
    | none => rw [hg] at h; cases h
    | some pe =>
      rw [hg] at h
      cases h
      rfl
  · intro r1 h
    unfold Renderer.setUniformArray at h
    cases hg : getPipeline r.pipelines pip with
    | none => rw [hg] at h; cases h
    | some pe =>
      rw [hg] at h
      cases h
      rfl
  · intro r1 h
    unfold Renderer.setTexture at h
    cases hg : getPipeline r.pipelines pip with
    | none => rw [hg] at h; cases h
    | some pe =>
      rw [hg, Option.some_bind] at h
      by_cases hc : pe.textures.contains tname = true
      · rw [if_pos hc] at h
        cases h
        rfl
      · rw [if_neg hc] at h
        cases h

/-- Fixture renderer for the C4 witness: a user pipeline in slot 4 with one
declared texture name. -/
def c4R : Renderer Unit Unit :=
  ((Renderer.makePipeline (Renderer.new () 16 16) [] ["tex0"]).map Prod.fst).getD
    (Renderer.new () 16 16)

/-- C4 witness: on the fixture, a uniform write and a uniform-array write
set the flag; a texture write leaves it clear. -/
theorem c4_break_batching_witness :
    ((c4R.setUniform ⟨4⟩ "_Time" [1, 2, 3, 4, 5, 6, 7, 8, 9, 10, 11, 12, 13, 14, 15, 16]).map
      fun r => r.state.break_batching) = some true ∧
    ((c4R.setUniformArray ⟨4⟩ "_Time"
        [1, 2, 3, 4, 5, 6, 7, 8, 9, 10, 11, 12, 13, 14, 15, 16]).map
      fun r => r.state.break_batching) = some true ∧
    ((c4R.setTexture ⟨4⟩ "tex0" 7).map fun r => r.state.break_batching) = some false := by
  obtain ⟨ha, hb, hc⟩ := c4_break_batching_amended (V := Unit) (M := Unit) c4R ⟨4⟩
    "_Time" "tex0" [1, 2, 3, 4, 5, 6, 7, 8, 9, 10, 11, 12, 13, 14, 15, 16]
    [1, 2, 3, 4, 5, 6, 7, 8, 9, 10, 11, 12, 13, 14, 15, 16] 7
  refine ⟨?_, ?_, ?_⟩
  · cases hw : c4R.setUniform ⟨4⟩ "_Time" [1, 2, 3, 4, 5, 6, 7, 8, 9, 10, 11, 12, 13, 14, 15, 16] with
    | none =>
      have hs : (c4R.setUniform ⟨4⟩ "_Time"
          [1, 2, 3, 4, 5, 6, 7, 8, 9, 10, 11, 12, 13, 14, 15, 16]).isSome = true := by decide
      rw [hw] at hs
      cases hs
    | some r1 =>
      show some r1.state.break_batching = some true
      rw [ha r1 hw]
  · cases hw : c4R.setUniformArray ⟨4⟩ "_Time" [1, 2, 3, 4, 5, 6, 7, 8, 9, 10, 11, 12, 13, 14, 15, 16] with
    | none =>
      have hs : (c4R.setUniformArray ⟨4⟩ "_Time"
          [1, 2, 3, 4, 5, 6, 7, 8, 9, 10, 11, 12, 13, 14, 15, 16]).isSome = true := by decide
      rw [hw] at hs
      cases hs
    | some r1 =>
      show some r1.state.break_batching = some true
      rw [hb r1 hw]
  · cases hw : c4R.setTexture ⟨4⟩ "tex0" 7 with
    | none =>
      have hs : (c4R.setTexture ⟨4⟩ "tex0" 7).isSome = true := by decide
      rw [hw] at hs
      cases hs
    | some r1 =>
      show some r1.state.break_batching = some false
      rw [hc r1 hw]
      decide

/-- The C9 counterexample run: install a user pipeline as the override,
delete it from the registry, leaving the override dangling. -/
def c9Setup : Option (Renderer Unit Unit) :=
  (Renderer.makePipeline (Renderer.new () 16 16) [] []).bind fun rp =>
    (withPipeline rp.1 (some rp.2)).map fun r2 => deletePipeline r2 rp.2

/-- C9 counterexample: calling `with_pipeline` with a handle that is not
present in the registry succeeds without failing when that handle equals
the current override, because the early unchanged-override return skips
the presence check; the claim requires a panic whenever the handle is not
present. -/
theorem c9_counterexample :
    (c9Setup.map fun r3 =>
      (hasPipeline r3.pipelines ⟨4⟩, (withPipeline r3 (some ⟨4⟩)).isSome)) =
    some (false, true) := by decide

/-- C9 (amended): `with_pipeline` with an unchanged override returns at
once, without setting the flag or checking presence; when the override
actually changes, the call fails precisely if the new handle is absent
from the registry, and otherwise sets break batching together with the new
override. -/
theorem c9_with_pipeline_amended (r : Renderer V M) (p : Option GlPipeline) :
    (r.state.pipeline = p → withPipeline r p = some r) ∧
    (∀ pip, p = some pip → r.state.pipeline ≠ p →
      hasPipeline r.pipelines pip = false → withPipeline r p = none) ∧
    (∀ r1, withPipeline r p = some r1 → r.state.pipeline ≠ p →
      r1.state.break_batching = true ∧ r1.state.pipeline = p) := by
  refine ⟨fun he => ?_, ?_, ?_⟩
  · unfold withPipeline
    rw [if_pos he]
  · intro pip hp hne hhas
    subst hp
    unfold withPipeline
    rw [if_neg hne]
    simp [hhas]
  · intro r1 h hne
    unfold withPipeline at h
    rw [if_neg hne] at h
    split at h
    · split at h
      · cases h
        exact ⟨rfl, rfl⟩
      · cases h
    · cases h
      exact ⟨rfl, rfl⟩

/-- C9 witness: changing the override from none to the built-in triangles
pipeline sets the flag and installs the override. -/
theorem c9_with_pipeline_witness :
    ((withPipeline (Renderer.new () 4 4 : Renderer Unit Unit) (some ⟨0⟩)).map fun r1 =>
      (r1.state.break_batching, r1.state.pipeline)) = some (true, some ⟨0⟩) := by
  obtain ⟨h1, h2, h3⟩ := c9_with_pipeline_amended
    (Renderer.new () 4 4 : Renderer Unit Unit) (some ⟨0⟩)
  cases hw : withPipeline (Renderer.new () 4 4 : Renderer Unit Unit) (some ⟨0⟩) with
  | none =>
    have hs : (withPipeline (Renderer.new () 4 4 : Renderer Unit Unit)
        (some ⟨0⟩)).isSome = true := by decide
    rw [hw] at hs
    cases hs
  | some r1 =>
    obtain ⟨hb, hp⟩ := h3 r1 hw (by decide)
    show some (r1.state.break_batching, r1.state.pipeline) = some (true, some ⟨0⟩)
    rw [hb, hp]

/-- C3 counterexample: a clamped push falsifies the claim as stated. With a
per-call maximum of 4 vertices, pushing 6 vertices with indices 0..5 — each
strictly below the 6 vertices supplied in that same call, and with the
resulting per-call vertex count 4 fitting the u16 index type — truncates
the vertices to 4 but keeps all six indices (renderer.rs lines 713-719),
so the stored index 5 is not strictly below the call's final vertex count
4 and references outside the call's own vertex range. -/
theorem c3_clamped_counterexample :
    (∀ x ∈ [0, 1, 2, 3, 4, 5], x < [(), (), (), (), (), ()].length) ∧
    (((pushGeometry (Renderer.new () 4 100 : Renderer Unit Unit)
        [(), (), (), (), (), ()] [0, 1, 2, 3, 4, 5]).1.draw_calls[0]?).map
      fun dc => (dc.vertices_count, dc.indices_count)) = some (4, 6) ∧
    (pushGeometry (Renderer.new () 4 100 : Renderer Unit Unit)
        [(), (), (), (), (), ()] [0, 1, 2, 3, 4, 5]).1.batch_index_buffer =
      [0, 1, 2, 3, 4, 5] ∧
    ¬ (∀ y ∈ (pushGeometry (Renderer.new () 4 100 : Renderer Unit Unit)
        [(), (), (), (), (), ()] [0, 1, 2, 3, 4, 5]).1.batch_index_buffer, y < 4) := by
  decide

/-- C3 (amended): for a push whose supplied vertex and index counts are
within the per-call maxima (so no clamping occurs), whose index values are
each strictly below the vertex count supplied in the same call, and whose
configured vertex maximum fits the u16 index type, the indices appended to
the shared index buffer are exactly the pushed values offset by the target
call's vertex count at the time of the push, and every stored index is
strictly below the call's final vertex count — a valid offset into the
call's own vertex range, never into another call's. -/
theorem c3_index_offsets (r : Renderer V M) (vertices : List V) (indices : List Nat)
    (hwf : r.draw_calls_count ≤ r.draw_calls.length)
    (hv : vertices.length ≤ r.max_vertices)
    (hi : indices.length ≤ r.max_indices)
    (hfit : r.max_vertices ≤ 65536)
    (hidx : ∀ x ∈ indices, x < vertices.length) :
    ∃ dc c,
      (pushGeometry r vertices indices).1.draw_calls[
        (pushGeometry r vertices indices).1.draw_calls_count - 1]? = some dc ∧
      dc.vertices_count = c + vertices.length ∧
      c + vertices.length ≤ r.max_vertices ∧
      (pushGeometry r vertices indices).1.batch_index_buffer =
        r.batch_index_buffer ++ indices.map (fun x => x + c) ∧
      ∀ y ∈ indices.map (fun x => x + c), y < dc.vertices_count := by
  have htv : truncTo r.max_vertices vertices = vertices := truncTo_of_le _ _ hv
  have hti : truncTo r.max_indices indices = indices := truncTo_of_le _ _ hi
  cases hsn : startNewCall r vertices.length indices.length with
  | true =>
    obtain ⟨dm, hslot, -, -⟩ := beginDrawCall_slot r hwf
    have hdc : (beginDrawCall r).draw_calls[(beginDrawCall r).draw_calls_count - 1]? =
        some
        { vertices_count := 0
          indices_count := 0
          vertices_start := r.batch_vertex_buffer.length
          indices_start := r.batch_index_buffer.length
          clip := r.state.clip
          viewport := r.state.viewport
          texture := r.state.texture
          model := stateModel r.state
          draw_mode := dm
          pipeline := effectivePipeline r.state
          uniforms := r.state.pipeline.bind fun p =>
            (getPipeline r.pipelines p).map fun pe => pe.uniforms_data
          render_pass := r.state.render_pass
          capture := r.state.capture } := by
      rw [beginDrawCall_count]
      simpa using hslot
    have hr1 : (pushGeometry r vertices indices).1 =
        appendGeometry (beginDrawCall r) vertices indices := by
      rw [pushGeometry_eq, htv, hti, if_pos hsn]
    rw [hr1, appendGeometry_eq _ _ _ _ hdc]
    have hlen2 : r.draw_calls_count < (beginDrawCall r).draw_calls.length := by
      rw [beginDrawCall_length r hwf]
      omega
    refine ⟨{ vertices_count := 0 + vertices.length
              indices_count := 0 + indices.length
              vertices_start := r.batch_vertex_buffer.length
              indices_start := r.batch_index_buffer.length
              clip := r.state.clip
              viewport := r.state.viewport
              texture := r.state.texture
              model := stateModel r.state
              draw_mode := dm
              pipeline := effectivePipeline r.state
              uniforms := r.state.pipeline.bind fun p =>
                (getPipeline r.pipelines p).map fun pe => pe.uniforms_data
              render_pass := r.state.render_pass
              capture := r.state.capture }, 0, ?_, ?_, ?_, ?_, ?_⟩
    · show (((beginDrawCall r).draw_calls.set ((beginDrawCall r).draw_calls_count - 1) _)[
        (beginDrawCall r).draw_calls_count - 1]?) = _
      rw [beginDrawCall_count]
      simp only [Nat.add_sub_cancel]
      rw [List.getElem?_set_self hlen2]
      rfl
    · simp
    · omega
    · show (beginDrawCall r).batch_index_buffer ++ _ = _
      rw [(beginDrawCall_frame r).2.2.2.1]
      congr 1
      apply List.map_congr_left
      intro x hx
      have := hidx x hx
      show (x + (0 : Nat) % 65536) % 65536 = x + 0
      omega
    · intro y hy
      rw [List.mem_map] at hy
      obtain ⟨x, hx, rfl⟩ := hy
      have := hidx x hx
      simp
      omega
  | false =>
    obtain ⟨dc, hp⟩ : ∃ dc, previousDC r = some dc := by
      unfold startNewCall at hsn
      cases hp : previousDC r with
      | none => rw [hp] at hsn; cases hsn
      | some dc => exact ⟨dc, rfl⟩
    have hc0 : r.draw_calls_count ≠ 0 := by
      intro h0
      unfold previousDC at hp
      rw [if_pos h0] at hp
      cases hp
    have hdc : r.draw_calls[r.draw_calls_count - 1]? = some dc := by
      unfold previousDC at hp
      rw [if_neg hc0] at hp
      exact hp
    have hmis : dcMismatch dc r.state (effectivePipeline r.state) r.max_vertices
        r.max_indices vertices.length indices.length = false := by
      unfold startNewCall at hsn
      rw [hp] at hsn
      exact hsn
    have hvc : dc.vertices_count + vertices.length < r.max_vertices := by
      unfold dcMismatch at hmis
      simp only [Bool.or_eq_false_iff, decide_eq_false_iff_not] at hmis
      have h8 := hmis.1.1.1.2
      omega
    have hr1 : (pushGeometry r vertices indices).1 =
        appendGeometry r vertices indices := by
      rw [pushGeometry_eq, htv, hti, if_neg (by rw [hsn]; exact Bool.false_ne_true)]
    rw [hr1, appendGeometry_eq _ _ _ _ hdc]
    have hlt : r.draw_calls_count - 1 < r.draw_calls.length := by
      by_contra hc
      rw [List.getElem?_eq_none (by omega)] at hdc
      cases hdc
    refine ⟨{ dc with
              vertices_count := dc.vertices_count + vertices.length
              indices_count := dc.indices_count + indices.length
              texture := r.state.texture }, dc.vertices_count, ?_, ?_, ?_, ?_, ?_⟩
    · show ((r.draw_calls.set (r.draw_calls_count - 1) _)[r.draw_calls_count - 1]?) = _
      rw [List.getElem?_set_self hlt]
    · simp
    · omega
    · show r.batch_index_buffer ++ _ = _
      congr 1
      apply List.map_congr_left
      intro x hx
      have := hidx x hx
      omega
    · intro y hy
      rw [List.mem_map] at hy
      obtain ⟨x, hx, rfl⟩ := hy
      have := hidx x hx
      simp
      omega

/-- C3 witness: the first push of three vertices with indices 0, 1, 2 into a
fresh batcher stores indices offset by the call's starting vertex count 0,
all below the final vertex count 3. -/
theorem c3_index_offsets_witness :
    ∃ dc c,
      (pushGeometry (Renderer.new () 100 100 : Renderer Unit Unit)
        [(), (), ()] [0, 1, 2]).1.draw_calls[
        (pushGeometry (Renderer.new () 100 100 : Renderer Unit Unit)
          [(), (), ()] [0, 1, 2]).1.draw_calls_count - 1]? = some dc ∧
      dc.vertices_count = c + [(), (), ()].length ∧
      c + [(), (), ()].length ≤ (Renderer.new () 100 100 : Renderer Unit Unit).max_vertices ∧
      (pushGeometry (Renderer.new () 100 100 : Renderer Unit Unit)
        [(), (), ()] [0, 1, 2]).1.batch_index_buffer =
        (Renderer.new () 100 100 : Renderer Unit Unit).batch_index_buffer ++
          [0, 1, 2].map (fun x => x + c) ∧
      ∀ y ∈ [0, 1, 2].map (fun x => x + c), y < dc.vertices_count :=
  c3_index_offsets (Renderer.new () 100 100) [(), (), ()] [0, 1, 2]
    (by decide) (by decide) (by decide) (by decide) (by decide)

theorem push_first (r : Renderer V M) (vs : List V) (inds : List Nat)
    (h0 : r.draw_calls_count = 0)
    (hstale : ∀ dc0, r.draw_calls[0]? = some dc0 → dc0.draw_mode = r.state.draw_mode)
    (hv : vs.length ≤ r.max_vertices) (hi : inds.length ≤ r.max_indices) :
    (pushGeometry r vs inds).1.draw_calls_count = 1 ∧
    (pushGeometry r vs inds).1.draw_calls[0]? = some
      { vertices_count := 0 + vs.length
        indices_count := 0 + inds.length
        vertices_start := r.batch_vertex_buffer.length
        indices_start := r.batch_index_buffer.length
        clip := r.state.clip
        viewport := r.state.viewport
        texture := r.state.texture
        model := stateModel r.state
        draw_mode := r.state.draw_mode
        pipeline := effectivePipeline r.state
        uniforms := r.state.pipeline.bind fun p =>
          (getPipeline r.pipelines p).map fun pe => pe.uniforms_data
        render_pass := r.state.render_pass
        capture := r.state.capture } ∧
    (pushGeometry r vs inds).1.state = { r.state with break_batching := false } ∧
    (pushGeometry r vs inds).1.max_vertices = r.max_vertices ∧
    (pushGeometry r vs inds).1.max_indices = r.max_indices := by
  have hwf : r.draw_calls_count ≤ r.draw_calls.length := by
    rw [h0]
    exact Nat.zero_le _
  have htv : truncTo r.max_vertices vs = vs := truncTo_of_le _ _ hv
  have hti : truncTo r.max_indices inds = inds := truncTo_of_le _ _ hi
  have hsn : startNewCall r vs.length inds.length = true := by
    unfold startNewCall previousDC
    rw [if_pos h0]
  obtain ⟨dm, hslot, hdm1, hdm2⟩ := beginDrawCall_slot r hwf
  have hdm : dm = r.state.draw_mode := by
    by_cases hl : r.draw_calls.length = 0
    · exact hdm1 (by omega)
    · obtain ⟨dc0, hdc0⟩ : ∃ dc0, r.draw_calls[0]? = some dc0 := by
        rw [List.getElem?_eq_getElem (by omega : 0 < r.draw_calls.length)]
        exact ⟨_, rfl⟩
      rw [hdm2 dc0 (by rw [← h0] at hdc0; exact hdc0), hstale dc0 hdc0]
  subst hdm
  have hdc : (beginDrawCall r).draw_calls[(beginDrawCall r).draw_calls_count - 1]? =
      some
      { vertices_count := 0
        indices_count := 0
        vertices_start := r.batch_vertex_buffer.length
        indices_start := r.batch_index_buffer.length
        clip := r.state.clip
        viewport := r.state.viewport
        texture := r.state.texture
        model := stateModel r.state
        draw_mode := r.state.draw_mode
        pipeline := effectivePipeline r.state
        uniforms := r.state.pipeline.bind fun p =>
          (getPipeline r.pipelines p).map fun pe => pe.uniforms_data
        render_pass := r.state.render_pass
        capture := r.state.capture } := by
    rw [beginDrawCall_count]
    simp only [Nat.add_sub_cancel]
    rw [h0]
    rw [h0] at hslot
    exact hslot
  have hr1 : (pushGeometry r vs inds).1 =
      appendGeometry (beginDrawCall r) vs inds := by
    rw [pushGeometry_eq, htv, hti, if_pos hsn]
  rw [hr1, appendGeometry_eq _ _ _ _ hdc]
  have hlen2 : r.draw_calls_count < (beginDrawCall r).draw_calls.length := by
    rw [beginDrawCall_length r hwf]
    omega
  refine ⟨?_, ?_, ?_, ?_, ?_⟩
  · show (beginDrawCall r).draw_calls_count = 1
    rw [beginDrawCall_count, h0]
  · show (((beginDrawCall r).draw_calls.set ((beginDrawCall r).draw_calls_count - 1) _)[0]?) = _
    rw [beginDrawCall_count]
    simp only [Nat.add_sub_cancel]
    rw [h0]
    rw [h0] at hlen2
    rw [List.getElem?_set_self hlen2]
    rfl
  · show (beginDrawCall r).state = _
    rw [beginDrawCall_state]
  · rfl
  · rfl

theorem push_append_step (s : Renderer V M) (vs : List V) (inds : List Nat)
    (dc : DrawCall V M)
    (hc : s.draw_calls_count = 1)
    (hdc : s.draw_calls[0]? = some dc)
    (ht : dc.texture = s.state.texture) (hcl : dc.clip = s.state.clip)
    (hvp : dc.viewport = s.state.viewport) (hm : dc.model = stateModel s.state)
    (hpp : dc.pipeline = effectivePipeline s.state)
    (hrp : dc.render_pass = s.state.render_pass)
    (hdm : dc.draw_mode = s.state.draw_mode)
    (hcap : dc.capture = s.state.capture)
    (hbb : s.state.break_batching = false)
    (hcv : dc.vertices_count + vs.length < s.max_vertices)
    (hci : dc.indices_count + inds.length < s.max_indices) :
    (pushGeometry s vs inds).1.draw_calls_count = 1 ∧
    (pushGeometry s vs inds).1.draw_calls[0]? = some { dc with
      vertices_count := dc.vertices_count + vs.length
      indices_count := dc.indices_count + inds.length
      texture := s.state.texture } ∧
    (pushGeometry s vs inds).1.state = s.state ∧
    (pushGeometry s vs inds).1.max_vertices = s.max_vertices ∧
    (pushGeometry s vs inds).1.max_indices = s.max_indices := by
  have hv : vs.length ≤ s.max_vertices := by omega
  have hi : inds.length ≤ s.max_indices := by omega
  have htv : truncTo s.max_vertices vs = vs := truncTo_of_le _ _ hv
  have hti : truncTo s.max_indices inds = inds := truncTo_of_le _ _ hi
  have hmis : dcMismatch dc s.state (effectivePipeline s.state) s.max_vertices
      s.max_indices vs.length inds.length = false := by
    unfold dcMismatch
    rw [ht, hcl, hvp, hm, hpp, hrp, hdm, hcap, hbb]
    simp only [ne_eq, not_true_eq_false, decide_False, Bool.or_false, Bool.false_or]
    rw [Bool.or_eq_false_iff]
    constructor <;> (rw [decide_eq_false_iff_not]; omega)
  have hdc1 : s.draw_calls[s.draw_calls_count - 1]? = some dc := by
    rw [hc]
    exact hdc
  have hsn : startNewCall s vs.length inds.length = false := by
    unfold startNewCall previousDC
    rw [hc]
    simp only [Nat.one_ne_zero, if_false]
    show (match s.draw_calls[1 - 1]? with
      | none => true
      | some dc => dcMismatch dc s.state (effectivePipeline s.state) s.max_vertices
          s.max_indices vs.length inds.length) = false
    rw [show (1 : Nat) - 1 = 0 from rfl, hdc]
    exact hmis
  have hr1 : (pushGeometry s vs inds).1 = appendGeometry s vs inds := by
    rw [pushGeometry_eq, htv, hti, if_neg (by rw [hsn]; exact Bool.false_ne_true)]
  have hlt : (0 : Nat) < s.draw_calls.length := by
    by_contra hcon
    rw [List.getElem?_eq_none (by omega)] at hdc
    cases hdc
  rw [hr1, appendGeometry_eq _ _ _ _ hdc1]
  refine ⟨?_, ?_, ?_, ?_, ?_⟩
  · show s.draw_calls_count = 1
    exact hc
  · show ((s.draw_calls.set (s.draw_calls_count - 1) _)[0]?) = _
    rw [hc]
    show ((s.draw_calls.set (1 - 1) _)[0]?) = _
    rw [show (1 : Nat) - 1 = 0 from rfl, List.getElem?_set_self hlt]
  · rfl
  · rfl
  · rfl

theorem push_fold_aux (rest : List (List V × List Nat)) :
    ∀ (s : Renderer V M) (dc : DrawCall V M),
    s.draw_calls_count = 1 →
    s.draw_calls[0]? = some dc →
    dc.texture = s.state.texture →
    dc.clip = s.state.clip →
    dc.viewport = s.state.viewport →
    dc.model = stateModel s.state →
    dc.pipeline = effectivePipeline s.state →
    dc.render_pass = s.state.render_pass →
    dc.draw_mode = s.state.draw_mode →
    dc.capture = s.state.capture →
    s.state.break_batching = false →
    dc.vertices_count + (rest.map fun p => p.1.length).sum < s.max_vertices →
    dc.indices_count + (rest.map fun p => p.2.length).sum < s.max_indices →
    (rest.foldl (fun s p => (pushGeometry s p.1 p.2).1) s).draw_calls_count = 1 ∧
    ((rest.foldl (fun s p => (pushGeometry s p.1 p.2).1) s).draw_calls[0]?).map
      (fun d => (d.vertices_count, d.indices_count)) =
      some (dc.vertices_count + (rest.map fun p => p.1.length).sum,
            dc.indices_count + (rest.map fun p => p.2.length).sum) := by
  induction rest with
  | nil =>
    intro s dc hc hdc _ _ _ _ _ _ _ _ _ hcv hci
    refine ⟨hc, ?_⟩
    rw [List.foldl_nil] at *
    rw [hdc]
    simp
  | cons q rest ih =>
    intro s dc hc hdc ht hcl hvp hm hpp hrp hdm hcap hbb hcv hci
    rw [List.map_cons, List.sum_cons] at hcv hci
    obtain ⟨hc1, hdc1, hst1, hmv1, hmi1⟩ :=
      push_append_step s q.1 q.2 dc hc hdc ht hcl hvp hm hpp hrp hdm hcap hbb
        (by omega) (by omega)
    rw [List.foldl_cons]
    have hres := ih ((pushGeometry s q.1 q.2).1)
      { dc with
        vertices_count := dc.vertices_count + q.1.length
        indices_count := dc.indices_count + q.2.length
        texture := s.state.texture }
      hc1 hdc1 (by rw [hst1]) (by rw [hst1]; exact hcl) (by rw [hst1]; exact hvp)
      (by rw [hst1]; exact hm) (by rw [hst1]; exact hpp) (by rw [hst1]; exact hrp)
      (by rw [hst1]; exact hdm) (by rw [hst1]; exact hcap) (by rw [hst1]; exact hbb)
      (by rw [hmv1]; simp; omega) (by rw [hmi1]; simp; omega)
    refine ⟨hres.1, ?_⟩
    rw [hres.2]
    simp only [Option.some.injEq, Prod.mk.injEq, List.map_cons, List.sum_cons]
    constructor <;> omega

/-- C1 (amended): for every nonempty sequence of pushes on a batcher at the
start of a frame (no pending calls, and no recycled record whose stale
`draw_mode` disagrees with the current state), with the Render State
unchanged throughout and the totals within the per-call maxima, exactly one
pending draw call results, and its vertex and index counts are the sums of
the pushed counts. -/
theorem c1_batch_sum_amended (r : Renderer V M) (ps : List (List V × List Nat))
    (hne : ps ≠ [])
    (h0 : r.draw_calls_count = 0)
    (hstale : ∀ dc0, r.draw_calls[0]? = some dc0 → dc0.draw_mode = r.state.draw_mode)
    (hv : (ps.map fun p => p.1.length).sum < r.max_vertices)
    (hi : (ps.map fun p => p.2.length).sum < r.max_indices) :
    (ps.foldl (fun s p => (pushGeometry s p.1 p.2).1) r).draw_calls_count = 1 ∧
    ((ps.foldl (fun s p => (pushGeometry s p.1 p.2).1) r).draw_calls[0]?).map
      (fun dc => (dc.vertices_count, dc.indices_count)) =
      some ((ps.map fun p => p.1.length).sum, (ps.map fun p => p.2.length).sum) := by
  cases ps with
  | nil => exact absurd rfl hne
  | cons p rest =>
    rw [List.map_cons, List.sum_cons] at hv hi
    obtain ⟨hc1, hdc1, hst1, hmv1, hmi1⟩ := push_first r p.1 p.2 h0 hstale
      (by omega) (by omega)
    rw [List.foldl_cons]
    have hres := push_fold_aux rest ((pushGeometry r p.1 p.2).1)
      { vertices_count := 0 + p.1.length
        indices_count := 0 + p.2.length
        vertices_start := r.batch_vertex_buffer.length
        indices_start := r.batch_index_buffer.length
        clip := r.state.clip
        viewport := r.state.viewport
        texture := r.state.texture
        model := stateModel r.state
        draw_mode := r.state.draw_mode
        pipeline := effectivePipeline r.state
        uniforms := r.state.pipeline.bind fun pq =>
          (getPipeline r.pipelines pq).map fun pe => pe.uniforms_data
        render_pass := r.state.render_pass
        capture := r.state.capture }
      hc1 hdc1 (by rw [hst1]; try rfl) (by rw [hst1]; try rfl) (by rw [hst1]; try rfl)
      (by rw [hst1]; try rfl) (by rw [hst1]; try rfl) (by rw [hst1]; try rfl)
      (by rw [hst1]; try rfl) (by rw [hst1]; try rfl) (by rw [hst1]; try rfl)
      (by rw [hmv1]; simp; omega) (by rw [hmi1]; simp; omega)
    refine ⟨hres.1, ?_⟩
    rw [hres.2]
    simp only [Option.some.injEq, Prod.mk.injEq, List.map_cons, List.sum_cons]
    constructor <;> omega

/-- C1 witness: the spec's scenario on the amended claim — pushing the same
triangle twice into a fresh batcher yields one draw call with vertex and
index counts 6 and 6. -/
theorem c1_batch_sum_witness :
    ([([(), (), ()], [0, 1, 2]), ([(), (), ()], [0, 1, 2])].foldl
      (fun s p => (pushGeometry s p.1 p.2).1)
      (Renderer.new () 100 100 : Renderer Unit Unit)).draw_calls_count = 1 ∧
    (([([(), (), ()], [0, 1, 2]), ([(), (), ()], [0, 1, 2])].foldl
      (fun s p => (pushGeometry s p.1 p.2).1)
      (Renderer.new () 100 100 : Renderer Unit Unit)).draw_calls[0]?).map
      (fun dc => (dc.vertices_count, dc.indices_count)) = some (6, 6) :=
  c1_batch_sum_amended (Renderer.new () 100 100) _ (by decide) (by decide)
    (fun dc0 h => by
      rw [show (Renderer.new () 100 100 : Renderer Unit Unit).draw_calls = [] from rfl] at h
      simp at h)
    (by decide) (by decide)

/-- In-bounds check for the draw-call record in slot `i`: its vertex and
index ranges lie inside the shared per-frame buffers. -/
def callInBounds (r : Renderer V M) (i : Nat) : Bool :=
  match r.draw_calls[i]? with
  | some dc =>
    decide (dc.vertices_start + dc.vertices_count ≤ r.batch_vertex_buffer.length) &&
    decide (dc.indices_start + dc.indices_count ≤ r.batch_index_buffer.length)
  | none => true

/-- Adjacent-slot ordering check: slot `i`'s ranges end at or before slot
`i + 1`'s ranges begin. -/
def chainAt (r : Renderer V M) (i : Nat) : Bool :=
  match r.draw_calls[i]?, r.draw_calls[i + 1]? with
  | some dc, some dc1 =>
    decide (dc.vertices_start + dc.vertices_count ≤ dc1.vertices_start) &&
    decide (dc.indices_start + dc.indices_count ≤ dc1.indices_start)
  | _, _ => true

/-- The C10 invariant: the pending count is within the record list, every
pending record's ranges are inside the shared buffers, and consecutive
pending records take disjoint ranges in creation order. -/
def rangesOk (r : Renderer V M) : Prop :=
  r.draw_calls_count ≤ r.draw_calls.length ∧
  (∀ i, i < r.draw_calls_count → callInBounds r i = true) ∧
  (∀ i, i + 1 < r.draw_calls_count → chainAt r i = true)

instance (r : Renderer V M) : Decidable (rangesOk r) :=
  decidable_of_iff
    (r.draw_calls_count ≤ r.draw_calls.length ∧
      (∀ i, i < r.draw_calls_count → callInBounds r i = true) ∧
      (∀ i, i < r.draw_calls_count - 1 → chainAt r i = true))
    (by
      unfold rangesOk
      constructor
      · rintro ⟨a, b, c⟩
        exact ⟨a, b, fun i hi => c i (by omega)⟩
      · rintro ⟨a, b, c⟩
        exact ⟨a, b, fun i hi => c i (by omega)⟩)

/-- Pairwise form of the ordering: any two pending records, in creation
order, occupy disjoint buffer ranges. -/
def disjointOrdered (r : Renderer V M) : Prop :=
  ∀ i j, i < j → j < r.draw_calls_count →
    ∀ dc dc1, r.draw_calls[i]? = some dc → r.draw_calls[j]? = some dc1 →
      dc.vertices_start + dc.vertices_count ≤ dc1.vertices_start ∧
      dc.indices_start + dc.indices_count ≤ dc1.indices_start

/-- The renderer operations of the C10 claim. -/
inductive ROp (V M : Type) where
  | push (vertices : List V) (indices : List Nat)
  | flush (screen : Int × Int) (passSize : RenderPass → Int × Int)
  | clear
  | clearCalls
  | resize (max_vertices max_indices : Nat)

/-- Apply one operation to the renderer. -/
def ROp.apply : ROp V M → Renderer V M → Renderer V M
  | .push vs inds, r => (pushGeometry r vs inds).1
  | .flush screen passSize, r => (draw r screen passSize).1
  | .clear, r => clearRenderer r
  | .clearCalls, r => clearDrawCalls r
  | .resize mv mi, r => updateDrawcallCapacity r mv mi

theorem callInBounds_iff (r : Renderer V M) (i : Nat) :
    callInBounds r i = true ↔ (∀ dc, r.draw_calls[i]? = some dc →
      dc.vertices_start + dc.vertices_count ≤ r.batch_vertex_buffer.length ∧
      dc.indices_start + dc.indices_count ≤ r.batch_index_buffer.length) := by
  unfold callInBounds
  cases h : r.draw_calls[i]? with
  | none => simp
  | some dc => simp

theorem chainAt_iff (r : Renderer V M) (i : Nat) :
    chainAt r i = true ↔ (∀ dc dc1, r.draw_calls[i]? = some dc →
      r.draw_calls[i + 1]? = some dc1 →
      dc.vertices_start + dc.vertices_count ≤ dc1.vertices_start ∧
      dc.indices_start + dc.indices_count ≤ dc1.indices_start) := by
  unfold chainAt
  cases h : r.draw_calls[i]? with
  | none => simp
  | some dc =>
    cases h1 : r.draw_calls[i + 1]? with
    | none => simp
    | some dc1 => simp

theorem rangesOk_disjoint (r : Renderer V M) (h : rangesOk r) : disjointOrdered r := by
  obtain ⟨h1, h2, h3⟩ := h
  have key : ∀ j, j < r.draw_calls_count → ∀ i, i < j →
      ∀ dc dc1, r.draw_calls[i]? = some dc → r.draw_calls[j]? = some dc1 →
      dc.vertices_start + dc.vertices_count ≤ dc1.vertices_start ∧
      dc.indices_start + dc.indices_count ≤ dc1.indices_start := by
    intro j
    induction j with
    | zero => intro _ i hi; exact absurd hi (Nat.not_lt_zero i)
    | succ j ih =>
      intro hj i hi dc dc1 hdc hdc1
      have hchain := (chainAt_iff r j).mp (h3 j hj)
      rcases Nat.lt_succ_iff_lt_or_eq.mp hi with hlt | heq
      · have hjc : j < r.draw_calls_count := by omega
        obtain ⟨dcm, hdcm⟩ : ∃ dcm, r.draw_calls[j]? = some dcm := by
          rw [List.getElem?_eq_getElem (by omega : j < r.draw_calls.length)]
          exact ⟨_, rfl⟩
        obtain ⟨hv1, hi1⟩ := ih hjc i hlt dc dcm hdc hdcm
        obtain ⟨hv2, hi2⟩ := hchain dcm dc1 hdcm hdc1
        constructor <;> omega
      · subst heq
        exact hchain dc dc1 hdc hdc1
  intro i j hij hj dc dc1 hdc hdc1
  exact key j hj i hij dc dc1 hdc hdc1

theorem rangesOk_of_count_zero (r : Renderer V M) (h0 : r.draw_calls_count = 0) :
    rangesOk r := by
  refine ⟨by omega, fun i hi => absurd hi (by omega), fun i hi => absurd hi (by omega)⟩

theorem rangesOk_push (r : Renderer V M) (vertices : List V) (indices : List Nat)
    (h : rangesOk r) : rangesOk (pushGeometry r vertices indices).1 := by
  obtain ⟨h1, h2, h3⟩ := h
  cases hsn : startNewCall r (truncTo r.max_vertices vertices).length
      (truncTo r.max_indices indices).length with
  | true =>
    obtain ⟨dm, hslot, -, -⟩ := beginDrawCall_slot r h1
    obtain ⟨dcN, hslotN, hvc0, hic0, hvs0, his0⟩ :
        ∃ dcN, (beginDrawCall r).draw_calls[r.draw_calls_count]? = some dcN ∧
          dcN.vertices_count = 0 ∧ dcN.indices_count = 0 ∧
          dcN.vertices_start = r.batch_vertex_buffer.length ∧
          dcN.indices_start = r.batch_index_buffer.length :=
      ⟨_, hslot, rfl, rfl, rfl, rfl⟩
    have hdc : (beginDrawCall r).draw_calls[(beginDrawCall r).draw_calls_count - 1]? =
        some dcN := by
      rw [beginDrawCall_count]
      simpa using hslotN
    have hr1 : (pushGeometry r vertices indices).1 =
        appendGeometry (beginDrawCall r) (truncTo r.max_vertices vertices)
          (truncTo r.max_indices indices) := by
      rw [pushGeometry_eq, if_pos hsn]
    have hlenB : (beginDrawCall r).draw_calls.length =
        max r.draw_calls.length (r.draw_calls_count + 1) := beginDrawCall_length r h1
    have hltB : r.draw_calls_count < (beginDrawCall r).draw_calls.length := by
      rw [hlenB]
      omega
    rw [hr1, appendGeometry_eq _ _ _ _ hdc]
    refine ⟨?_, ?_, ?_⟩
    · show (beginDrawCall r).draw_calls_count ≤ _
      dsimp only
      rw [List.length_set, beginDrawCall_count, hlenB]
      omega
    · intro i hi
      have hi1 : i < r.draw_calls_count + 1 := by
        have : i < (beginDrawCall r).draw_calls_count := hi
        rw [beginDrawCall_count] at this
        exact this
      rw [callInBounds_iff]
      intro dc hdci
      dsimp only at hdci ⊢
      rw [beginDrawCall_count, Nat.add_sub_cancel] at hdci
      rw [(beginDrawCall_frame r).2.2.1, (beginDrawCall_frame r).2.2.2.1,
        List.length_append, List.length_append, List.length_map]
      by_cases hieq : i = r.draw_calls_count
      · subst hieq
        rw [List.getElem?_set_self hltB] at hdci
        cases hdci
        dsimp only
        rw [hvs0, his0, hvc0, hic0]
        constructor <;> omega
      · have hilt : i < r.draw_calls_count := by omega
        rw [List.getElem?_set_ne (fun hx => hieq hx.symm)] at hdci
        rw [beginDrawCall_slot_lt r i h1 hilt] at hdci
        obtain ⟨hb1, hb2⟩ := (callInBounds_iff r i).mp (h2 i hilt) dc hdci
        constructor <;> omega
    · intro i hi
      have hi1 : i + 1 < r.draw_calls_count + 1 := by
        have : i + 1 < (beginDrawCall r).draw_calls_count := hi
        rw [beginDrawCall_count] at this
        exact this
      rw [chainAt_iff]
      intro dc dc1 hdci hdci1
      dsimp only at hdci hdci1
      rw [beginDrawCall_count, Nat.add_sub_cancel] at hdci hdci1
      have hilt : i < r.draw_calls_count := by omega
      rw [List.getElem?_set_ne (fun hx => (by omega : i ≠ r.draw_calls_count) hx.symm)] at hdci
      rw [beginDrawCall_slot_lt r i h1 hilt] at hdci
      by_cases hieq : i + 1 = r.draw_calls_count
      · rw [hieq, List.getElem?_set_self hltB] at hdci1
        cases hdci1
        dsimp only
        rw [hvs0, his0]
        obtain ⟨hb1, hb2⟩ := (callInBounds_iff r i).mp (h2 i hilt) dc hdci
        constructor <;> omega
      · have hilt1 : i + 1 < r.draw_calls_count := by omega
        rw [List.getElem?_set_ne (fun hx => hieq hx.symm)] at hdci1
        rw [beginDrawCall_slot_lt r (i + 1) h1 hilt1] at hdci1
        exact (chainAt_iff r i).mp (h3 i hilt1) dc dc1 hdci hdci1
  | false =>
    obtain ⟨dc, hp⟩ : ∃ dc, previousDC r = some dc := by
      unfold startNewCall at hsn
      cases hp : previousDC r with
      | none => rw [hp] at hsn; cases hsn
      | some dc => exact ⟨dc, rfl⟩
    have hc0 : r.draw_calls_count ≠ 0 := by
      intro hz
      unfold previousDC at hp
      rw [if_pos hz] at hp
      cases hp
    have hdc : r.draw_calls[r.draw_calls_count - 1]? = some dc := by
      unfold previousDC at hp
      rw [if_neg hc0] at hp
      exact hp
    have hr1 : (pushGeometry r vertices indices).1 =
        appendGeometry r (truncTo r.max_vertices vertices)
          (truncTo r.max_indices indices) := by
      rw [pushGeometry_eq, if_neg (by rw [hsn]; exact Bool.false_ne_true)]
    have hlt : r.draw_calls_count - 1 < r.draw_calls.length := by
      by_contra hcon
      rw [List.getElem?_eq_none (by omega)] at hdc
      cases hdc
    obtain ⟨hb1, hb2⟩ := (callInBounds_iff r (r.draw_calls_count - 1)).mp
      (h2 (r.draw_calls_count - 1) (by omega)) dc hdc
    rw [hr1, appendGeometry_eq _ _ _ _ hdc]
    refine ⟨?_, ?_, ?_⟩
    · show r.draw_calls_count ≤ _
      dsimp only
      rw [List.length_set]
      exact h1
    · intro i hi
      have hi1 : i < r.draw_calls_count := hi
      rw [callInBounds_iff]
      intro d hdi
      dsimp only at hdi ⊢
      rw [List.length_append, List.length_append, List.length_map]
      by_cases hieq : i = r.draw_calls_count - 1
      · subst hieq
        rw [List.getElem?_set_self hlt] at hdi
        cases hdi
        dsimp only
        constructor <;> omega
      · rw [List.getElem?_set_ne (fun hx => hieq hx.symm)] at hdi
        obtain ⟨hc1, hc2⟩ := (callInBounds_iff r i).mp (h2 i hi1) d hdi
        constructor <;> omega
    · intro i hi
      have hi1 : i + 1 < r.draw_calls_count := hi
      rw [chainAt_iff]
      intro d d1 hdi hdi1
      dsimp only at hdi hdi1
      have hine : i ≠ r.draw_calls_count - 1 := by omega
      rw [List.getElem?_set_ne (fun hx => hine hx.symm)] at hdi
      by_cases hieq : i + 1 = r.draw_calls_count - 1
      · rw [hieq, List.getElem?_set_self hlt] at hdi1
        cases hdi1
        dsimp only
        have hch := (chainAt_iff r i).mp (h3 i hi1) d dc hdi (by rw [← hieq] at hdc; exact hdc)
        exact hch
      · rw [List.getElem?_set_ne (fun hx => hieq hx.symm)] at hdi1
        exact (chainAt_iff r i).mp (h3 i hi1) d d1 hdi hdi1

/-- C10: the range invariant — pending draw-call records stay within the
shared per-frame buffers, pairwise disjoint and ordered by creation — is
preserved by every renderer operation (push, flush, clear, clear of draw
calls, capacity resize), so the flusher uploads each call's exact slice
without overlap or out-of-bounds access. -/
theorem c10_ranges_invariant (r : Renderer V M) (op : ROp V M) (h : rangesOk r) :
    rangesOk (op.apply r) ∧ disjointOrdered (op.apply r) := by
  have hok : rangesOk (op.apply r) := by
    cases op with
    | push vs inds => exact rangesOk_push r vs inds h
    | flush screen passSize => exact rangesOk_of_count_zero _ rfl
    | clear => exact rangesOk_of_count_zero _ rfl
    | clearCalls => exact rangesOk_of_count_zero _ rfl
    | resize mv mi => exact rangesOk_of_count_zero _ rfl
  exact ⟨hok, rangesOk_disjoint _ hok⟩

/-- C10 witness: the invariant holds of a fresh batcher and is preserved by
a concrete push. -/
theorem c10_ranges_invariant_witness :
    rangesOk (ROp.apply (ROp.push [()] [0]) (Renderer.new () 4 4 : Renderer Unit Unit)) ∧
    disjointOrdered (ROp.apply (ROp.push [()] [0]) (Renderer.new () 4 4 : Renderer Unit Unit)) :=
  c10_ranges_invariant (Renderer.new () 4 4) (ROp.push [()] [0]) (by decide)

end Claims

end Macroquad
